import Mathlib

/-
Shallow embedding of the StudyShare backend core
(src/studyshare/backend/src/models/Post.js, the User and Comment models,
and the operations the spec describes on them).

Conventions:
- Mongo ObjectIds are modelled as naturals.
- Timestamps (JS Date values) are modelled as integers, milliseconds since
  the epoch; the ambient clock `new Date()` becomes an explicit `now` argument.
- JS numbers are modelled as rationals; every constant appearing in the
  source (2, 3, 1.5, 0.1, 20) is exactly representable as a double, and on
  the concrete scenarios below double arithmetic agrees with exact rational
  arithmetic.
- Mutating methods become state-passing functions; a method that can throw
  returns the resulting document state together with the optional error
  message (the sources throw before mutating).
-/

namespace StudyShare

/-- JS Math.round: round half towards positive infinity. -/
def jsRound (q : ℚ) : ℤ := ⌊q + 1/2⌋

/-- Mongoose setter on rating.average (Post.js line 134):
val => Math.round(val * 10) / 10. -/
def ratingAverageSet (val : ℚ) : ℚ := (jsRound (val * 10) : ℚ) / 10

/-- An entry of viewHistory (Post.js lines 117-120). -/
structure ViewEntry where
  userId : ℕ
  viewedAt : ℤ
deriving DecidableEq, Repr

/-- rating.details (Post.js lines 140-146): fixed keys 1..5; field dK models
key K. -/
structure RatingDetails where
  d1 : ℕ
  d2 : ℕ
  d3 : ℕ
  d4 : ℕ
  d5 : ℕ
deriving DecidableEq, Repr

/-- JS property read this.rating.details[v] with the `|| 0` fallback of
Post.js line 318: keys other than 1..5 read as 0. -/
def RatingDetails.get (d : RatingDetails) (v : ℤ) : ℕ :=
  if v = 1 then d.d1
  else if v = 2 then d.d2
  else if v = 3 then d.d3
  else if v = 4 then d.d4
  else if v = 5 then d.d5
  else 0

/-- JS property write this.rating.details[v] = n (Post.js line 319),
restricted to the schema keys 1..5. -/
def RatingDetails.set (d : RatingDetails) (v : ℤ) (n : ℕ) : RatingDetails :=
  if v = 1 then { d with d1 := n }
  else if v = 2 then { d with d2 := n }
  else if v = 3 then { d with d3 := n }
  else if v = 4 then { d with d4 := n }
  else if v = 5 then { d with d5 := n }
  else d

/-- Object.values(this.rating.details).reduce((a, b) => a + b, 0)
(Post.js line 322). -/
def RatingDetails.total (d : RatingDetails) : ℕ :=
  d.d1 + d.d2 + d.d3 + d.d4 + d.d5

/-- Object.entries(this.rating.details).reduce((sum, [rating, count]) =>
sum + parseInt(rating) * count, 0) (Post.js lines 323-325). -/
def RatingDetails.weighted (d : RatingDetails) : ℕ :=
  1 * d.d1 + 2 * d.d2 + 3 * d.d3 + 4 * d.d4 + 5 * d.d5

/-- The rating subdocument (Post.js lines 128-147). -/
structure Rating where
  average : ℚ
  count : ℕ
  details : RatingDetails
deriving DecidableEq, Repr

/-- Post status enum (Post.js lines 150-154). -/
inductive PostStatus
  | draft
  | published
  | archived
  | flagged
  | deleted
deriving DecidableEq, Repr

/-- The Post document (Post.js schema). Only the fields the specified core
reads or writes are modelled. commentsCount is the populated virtual
(Post.js lines 221-226): none when not populated. -/
structure Post where
  oid : ℕ
  title : String
  slug : String
  content : String
  excerpt : String
  author : ℕ
  authorName : String
  postType : String
  subject : String
  tags : List String
  likes : List ℕ
  saves : List ℕ
  views : ℕ
  viewHistory : List ViewEntry
  rating : Rating
  status : PostStatus
  publishedAt : ℤ
  lastActivity : ℤ
  commentsCount : Option ℕ
  isSolved : Bool
  acceptedAnswer : Option ℕ
deriving DecidableEq, Repr

/-- Virtual likesCount (Post.js lines 213-215). -/
def Post.likesCount (p : Post) : ℕ := p.likes.length

/-- Virtual savesCount (Post.js lines 217-219). -/
def Post.savesCount (p : Post) : ℕ := p.saves.length

/-- Virtual popularityScore (Post.js lines 228-236). -/
def Post.popularityScore (p : Post) : ℚ :=
  let likesWeight := (p.likesCount : ℚ) * 2
  let savesWeight := (p.savesCount : ℚ) * 3
  let commentsWeight := ((p.commentsCount.getD 0 : ℕ) : ℚ) * 1.5
  let viewsWeight := (p.views : ℚ) * 0.1
  let ratingWeight := p.rating.average * 20
  likesWeight + savesWeight + commentsWeight + viewsWeight + ratingWeight

/-- postSchema.pre of save (Post.js lines 258-278): regenerate the slug when
the title was modified (slugify is an external library, so the slug it
would produce is passed in as newSlug), generate the excerpt when absent,
and set lastActivity to now. -/
def Post.preSave (titleModified : Bool) (newSlug : String) (now : ℤ) (p : Post) : Post :=
  let p := if titleModified then { p with slug := newSlug } else p
  let p :=
    if p.excerpt = "" ∧ p.content ≠ "" then
      { p with excerpt := (p.content.take 200) ++ "..." }
    else p
  { p with lastActivity := now }

/-- postSchema.methods.incrementViews (Post.js lines 291-310). The counter
is always incremented; a history entry is appended only when the given user
has no entry newer than 24 hours; then the document is saved (the method
does not touch the title, so the pre-save slug branch is not taken). -/
def Post.incrementViews (now : ℤ) (userId : Option ℕ) (p : Post) : Post :=
  let p := { p with views := p.views + 1 }
  let p :=
    match userId with
    | none => p
    | some uid =>
      match p.viewHistory.find?
          (fun v : ViewEntry =>
            v.userId == uid && decide (now - v.viewedAt < 24 * 60 * 60 * 1000)) with
      | some _ => p
      | none => { p with viewHistory := p.viewHistory ++ [ViewEntry.mk uid now] }
  p.preSave false p.slug now

/-- postSchema.methods.addRating (Post.js lines 312-331). Returns the
resulting document state and the thrown error message, if any; the throw
happens before any mutation. The userId argument is accepted and ignored,
as in the source (no per-user deduplication). -/
def Post.addRating (now : ℤ) (_userId : ℕ) (ratingValue : ℤ) (p : Post) :
    Post × Option String :=
  if ratingValue < 1 ∨ ratingValue > 5 then
    (p, some "Rating must be between 1 and 5")
  else
    let oldRating := p.rating.details.get ratingValue
    let details := p.rating.details.set ratingValue (oldRating + 1)
    let totalRatings := details.total
    let sumRatings := details.weighted
    let rating : Rating :=
      { average := ratingAverageSet ((sumRatings : ℚ) / (totalRatings : ℚ)),
        count := totalRatings,
        details := details }
    ((Post.preSave false p.slug now { p with rating := rating }), none)

/-- The User document (src/unnamed/part_000), restricted to the fields the
trending pipeline joins on. -/
structure User where
  oid : ℕ
  displayName : String
  avatar : String
deriving DecidableEq, Repr

/-- The first $match stage of getTrending (Post.js lines 336 and 394-396):
status is published, and the subject matches when a subject argument was
given. -/
def trendingMatch (subject : Option String) (p : Post) : Bool :=
  p.status == PostStatus.published &&
    (match subject with
     | none => true
     | some s => p.subject == s)

/-- A candidate document after the two $addFields stages of getTrending. -/
structure Scored where
  post : Post
  score : ℚ
  recency : ℚ
  trendingScore : ℚ
deriving DecidableEq, Repr

/-- The $addFields stages of getTrending (Post.js lines 337-361): the
aggregation score adds the likes, saves, views and rating terms (and no
comments term), recency is the age in days, and trendingScore divides the
score by 1 + recency. -/
def addScores (now : ℤ) (p : Post) : Scored :=
  let score : ℚ :=
    (p.likes.length : ℚ) * 2 + (p.saves.length : ℚ) * 3 +
      (p.views : ℚ) * 0.1 + p.rating.average * 20
  let recency : ℚ := ((now - p.publishedAt : ℤ) : ℚ) / (1000 * 60 * 60 * 24)
  { post := p, score := score, recency := recency,
    trendingScore := score / (1 + recency) }

/-- Descending order on trendingScore, the $sort key of Post.js line 362. -/
def scoredDesc (a b : Scored) : Prop := b.trendingScore ≤ a.trendingScore

instance : DecidableRel scoredDesc := fun a b =>
  inferInstanceAs (Decidable (b.trendingScore ≤ a.trendingScore))

instance : IsTotal Scored scoredDesc :=
  ⟨fun a b => le_total b.trendingScore a.trendingScore⟩

instance : IsTrans Scored scoredDesc :=
  ⟨fun _ _ _ h1 h2 => le_trans h2 h1⟩

/-- The output row of the final $project stage (Post.js lines 373-391),
after the author $lookup and $unwind. The projected readTime and
commentsCount refer to virtuals that do not exist on the raw collection;
commentsCount is carried over as the optional stored value and readTime is
omitted. -/
structure TrendingRow where
  title : String
  slug : String
  excerpt : String
  postType : String
  subject : String
  authorName : String
  authorAvatar : String
  likesCount : ℕ
  savesCount : ℕ
  views : ℕ
  rating : Rating
  publishedAt : ℤ
  tags : List String
  commentsCount : Option ℕ
deriving DecidableEq, Repr

/-- The $lookup of users on author (Post.js lines 364-371); user ids are
unique, so at most one user matches. -/
def lookupAuthor (users : List User) (p : Post) : Option User :=
  users.find? (fun u : User => u.oid == p.author)

/-- The $unwind of authorDetails plus the $project (Post.js lines 372-391):
a document whose author is not found produces no row. -/
def projectRow (users : List User) (s : Scored) : Option TrendingRow :=
  (lookupAuthor users s.post).map fun u =>
    { title := s.post.title, slug := s.post.slug, excerpt := s.post.excerpt,
      postType := s.post.postType, subject := s.post.subject,
      authorName := s.post.authorName, authorAvatar := u.avatar,
      likesCount := s.post.likes.length, savesCount := s.post.saves.length,
      views := s.post.views, rating := s.post.rating,
      publishedAt := s.post.publishedAt, tags := s.post.tags,
      commentsCount := s.post.commentsCount }

/-- The pipeline of getTrending up to and including a successful $limit
stage: match, score, sort descending by trendingScore, take the first
limit documents (the behaviour of $limit for a positive limit; the error
MongoDB raises at a nonpositive limit is carried by getTrending below). -/
def getTrendingScored (now : ℤ) (posts : List Post) (limit : ℕ)
    (subject : Option String) : List Scored :=
  (List.insertionSort scoredDesc
    ((posts.filter (trendingMatch subject)).map (addScores now))).take limit

/-- postSchema.statics.getTrending (Post.js lines 334-399) over the post
collection, the user collection, and the current time. The pipeline hands
the raw limit argument to the $limit stage (Post.js line 363); MongoDB
rejects a nonpositive $limit value with error 15958, so the call errors at
limit 0 instead of producing documents. -/
def getTrending (now : ℤ) (posts : List Post) (users : List User)
    (limit : ℕ) (subject : Option String) : Except String (List TrendingRow) :=
  if limit = 0 then
    Except.error "the limit must be positive"
  else
    Except.ok ((getTrendingScored now posts limit subject).filterMap (projectRow users))

/-- Comment status enum (src/unnamed/part_001 lines 59-63). -/
inductive CommentStatus
  | active
  | deleted
  | flagged
  | hidden
deriving DecidableEq, Repr

/-- An entry of editHistory (src/unnamed/part_001 lines 84-88). -/
structure EditEntry where
  content : String
  editedAt : ℤ
  reason : String
deriving DecidableEq, Repr

/-- The Comment document (src/unnamed/part_001 schema), restricted to the
fields the specified core reads or writes. -/
structure Comment where
  oid : ℕ
  content : String
  author : ℕ
  post : ℕ
  parentComment : Option ℕ
  depth : ℕ
  status : CommentStatus
  isAcceptedAnswer : Bool
  edited : Bool
  editHistory : List EditEntry
deriving DecidableEq, Repr

/-- commentSchema.pre of save (src/unnamed/part_001 lines 137-154):
when a parent comment exists the depth is set to the placeholder 1 (the
source comment defers the real value to a post-save step); when the content
path is modified on a non-new document, edited is set and an entry holding
prevContent (the ad-hoc previousContent property a caller may set before
saving) or, failing that, the current content is appended to editHistory. -/
def Comment.preSave (now : ℤ) (isNew : Bool) (contentModified : Bool)
    (prevContent : Option String) (c : Comment) : Comment :=
  let c := if c.parentComment.isSome then { c with depth := 1 } else c
  if contentModified ∧ isNew = false then
    { c with edited := true,
             editHistory := c.editHistory ++
               [EditEntry.mk (prevContent.getD c.content) now "User edit"] }
  else c

/-- Modelled from the spec: the depth computation the pre-save hook defers
to a post-save step (the tail of the Comment model that would perform it is
not in src). Per the spec, depth = min(parent.depth + 1, 5) when a parent
comment is given, else the schema default 0 is kept. -/
def Comment.fixDepth (parent : Option Comment) (c : Comment) : Comment :=
  match parent with
  | some pc => { c with depth := min (pc.depth + 1) 5 }
  | none => c

/-- Modelled from the spec: createComment (the comments route is not in
src). Validates the content length against the schema bounds [1,2000],
builds the comment with the schema defaults, saves it (running the
pre-save hook on a new document), then applies the deferred depth update. -/
def createComment (now : ℤ) (cid : ℕ) (postId : ℕ) (authorId : ℕ)
    (content : String) (parent : Option Comment) : Except String Comment :=
  if content.length < 1 ∨ content.length > 2000 then
    Except.error "Comment content length out of range"
  else
    let c : Comment :=
      { oid := cid, content := content, author := authorId, post := postId,
        parentComment := parent.map (fun pc : Comment => pc.oid),
        depth := 0, status := CommentStatus.active,
        isAcceptedAnswer := false, edited := false, editHistory := [] }
    Except.ok (Comment.fixDepth parent (c.preSave now true true none))

/-- Modelled from the spec: editComment (the comments route is not in src).
Fails unless the comment is active; validates the new content length;
stashes the prior content for the pre-save hook (its fallback reads the
previousContent property the caller sets), updates the content and saves
(the content path counts as modified only when its value changed). -/
def editComment (now : ℤ) (newContent : String) (c : Comment) :
    Except String Comment :=
  if c.status ≠ CommentStatus.active then
    Except.error "Can only edit active comments"
  else if newContent.length < 1 ∨ newContent.length > 2000 then
    Except.error "Comment content length out of range"
  else
    Except.ok (Comment.preSave now false (!(newContent == c.content))
      (some c.content) { c with content := newContent })

/-- Modelled from the spec: the unset half of acceptAnswer, applied to each
comment of the post: a previously accepted comment of the post loses its
mark. -/
def unsetAccepted (pid : ℕ) (d : Comment) : Comment :=
  if d.post == pid && d.isAcceptedAnswer then
    { d with isAcceptedAnswer := false }
  else d

/-- Modelled from the spec: the set half of acceptAnswer: the chosen
comment gains the mark. -/
def setAccepted (cid : ℕ) (d : Comment) : Comment :=
  if d.oid == cid then { d with isAcceptedAnswer := true } else d

/-- Modelled from the spec: acceptAnswer (not in src). Valid only when the
post is a question; fails when the comment does not belong to the post;
unsets isAcceptedAnswer on any previously accepted comment of the post,
then sets it on the given comment, and marks the post solved. -/
def acceptAnswer (comments : List Comment) (c : Comment) (p : Post) :
    Except String (Post × List Comment) :=
  if p.postType ≠ "question" then
    Except.error "Answers can only be accepted on question posts"
  else if ¬ (c.post = p.oid ∧ c ∈ comments) then
    Except.error "Comment does not belong to this post"
  else
    Except.ok ({ p with isSolved := true, acceptedAnswer := some c.oid },
      comments.map (fun d : Comment => setAccepted c.oid (unsetAccepted p.oid d)))

/-- The comments of the post that are currently marked as the accepted
answer. -/
def acceptedFor (pid : ℕ) (comments : List Comment) : List Comment :=
  comments.filter (fun d : Comment => d.post == pid && d.isAcceptedAnswer)

/-- One step of a sequence of acceptAnswer calls, addressed by comment id as
a route would: the comment is fetched from the current collection state, and
a failing call leaves the state unchanged. -/
def acceptStep (s : Post × List Comment) (cid : ℕ) : Post × List Comment :=
  match s.2.find? (fun d : Comment => d.oid == cid) with
  | none => s
  | some c =>
    match acceptAnswer s.2 c s.1 with
    | Except.ok s2 => s2
    | Except.error _ => s

/-- A sequence of acceptAnswer calls. -/
def acceptSeq (s : Post × List Comment) (cids : List ℕ) : Post × List Comment :=
  cids.foldl acceptStep s

/-! Concrete fixtures used by scenario conjuncts, counterexamples and
witnesses. -/

/-- The scenario post of the spec: likes=3, saves=2, views=50,
rating.average=4.5, commentsCount=4. -/
def scenarioPost : Post :=
  { oid := 1, title := "Title", slug := "t", content := "some proper content here",
    excerpt := "e", author := 7, authorName := "A", postType := "summary",
    subject := "math", tags := [], likes := [1, 2, 3], saves := [4, 5], views := 50,
    viewHistory := [], rating := { average := 4.5, count := 2, details := ⟨0, 0, 0, 1, 1⟩ },
    status := PostStatus.published, publishedAt := 0, lastActivity := 0,
    commentsCount := some 4, isSolved := false, acceptedAnswer := none }

/-- A post whose rating histogram is {5:2}: one more rating of 3 makes it
the {5:2, 3:1} scenario histogram. -/
def ratedPost : Post :=
  { scenarioPost with rating := { average := 5, count := 2, details := ⟨0, 0, 0, 0, 2⟩ } }

/-- A published post with no likes, saves, views or ratings but four
comments: its popularity score is 6, yet the trending pipeline scores it 0. -/
def commentsOnlyPost : Post :=
  { scenarioPost with likes := [], saves := [], views := 0,
                      rating := { average := 0, count := 0, details := ⟨0, 0, 0, 0, 0⟩ },
                      commentsCount := some 4 }

/-! Projection lemmas for the post pre-save hook: it only touches slug,
excerpt and lastActivity. -/

theorem Post.preSave_rating (tm : Bool) (s : String) (now : ℤ) (p : Post) :
    (p.preSave tm s now).rating = p.rating := by
  simp only [Post.preSave]
  split <;> split <;> rfl

theorem Post.preSave_views (tm : Bool) (s : String) (now : ℤ) (p : Post) :
    (p.preSave tm s now).views = p.views := by
  simp only [Post.preSave]
  split <;> split <;> rfl

theorem Post.preSave_viewHistory (tm : Bool) (s : String) (now : ℤ) (p : Post) :
    (p.preSave tm s now).viewHistory = p.viewHistory := by
  simp only [Post.preSave]
  split <;> split <;> rfl

theorem Post.preSave_lastActivity (tm : Bool) (s : String) (now : ℤ) (p : Post) :
    (p.preSave tm s now).lastActivity = now := rfl

/-- C1: for every post, the popularity score equals likesCount*2 +
savesCount*3 + commentsCount*1.5 + views*0.1 + rating.average*20, and the
scenario post with likes=3, saves=2, views=50, rating.average=4.5,
commentsCount=4 has score 113. -/
theorem C1_popularity_score_formula :
    (∀ p : Post, p.popularityScore =
        (p.likesCount : ℚ) * 2 + (p.savesCount : ℚ) * 3 +
          ((p.commentsCount.getD 0 : ℕ) : ℚ) * 1.5 + (p.views : ℚ) * 0.1 +
          p.rating.average * 20) ∧
    scenarioPost.popularityScore = 113 := by
  constructor
  · intro p
    rfl
  · norm_num [Post.popularityScore, Post.likesCount, Post.savesCount, scenarioPost]

/-- C4: addRating throws exactly when the rating value lies outside [1,5],
and on failure the document is unchanged. -/
theorem C4_addRating_validation :
    ∀ (now : ℤ) (u : ℕ) (v : ℤ) (p : Post),
      ((p.addRating now u v).2.isSome ↔ (v < 1 ∨ v > 5)) ∧
      ((v < 1 ∨ v > 5) → (p.addRating now u v).1 = p) := by
  intro now u v p
  by_cases hv : v < 1 ∨ v > 5 <;> simp [Post.addRating, hv]

/-- Witness for C4 at concrete rating values 0, 6 and 4. -/
theorem C4_addRating_validation_witness :
    (scenarioPost.addRating 0 7 0).1 = scenarioPost ∧
    (scenarioPost.addRating 0 7 0).2.isSome ∧
    (scenarioPost.addRating 0 7 6).2.isSome ∧
    ¬ (scenarioPost.addRating 0 7 4).2.isSome := by
  refine ⟨(C4_addRating_validation 0 7 0 scenarioPost).2 (Or.inl (by decide)),
    ((C4_addRating_validation 0 7 0 scenarioPost).1).mpr (Or.inl (by decide)),
    ((C4_addRating_validation 0 7 6 scenarioPost).1).mpr (Or.inr (by decide)),
    fun hs => ?_⟩
  rcases ((C4_addRating_validation 0 7 4 scenarioPost).1).mp hs with h | h <;> omega

/-- C10: every save of a Post document sets lastActivity to the current
time: directly through the pre-save hook, and through the saves performed
inside incrementViews and addRating (when the latter does not throw). -/
theorem C10_save_sets_lastActivity :
    ∀ (tm : Bool) (s : String) (now : ℤ) (uid : Option ℕ) (u : ℕ) (v : ℤ) (p : Post),
      (p.preSave tm s now).lastActivity = now ∧
      (p.incrementViews now uid).lastActivity = now ∧
      ((p.addRating now u v).2 = none → (p.addRating now u v).1.lastActivity = now) := by
  intro tm s now uid u v p
  refine ⟨rfl, rfl, fun h => ?_⟩
  by_cases hv : v < 1 ∨ v > 5
  · simp [Post.addRating, hv] at h
  · simp [Post.addRating, hv]
    rfl

/-- Witness for C10 at a concrete in-range rating. -/
theorem C10_save_sets_lastActivity_witness :
    (scenarioPost.preSave false "s" 42).lastActivity = 42 ∧
    (scenarioPost.incrementViews 42 (some 9)).lastActivity = 42 ∧
    (scenarioPost.addRating 42 9 3).1.lastActivity = 42 := by
  refine ⟨(C10_save_sets_lastActivity false "s" 42 (some 9) 9 3 scenarioPost).1,
    (C10_save_sets_lastActivity false "s" 42 (some 9) 9 3 scenarioPost).2.1,
    (C10_save_sets_lastActivity false "s" 42 (some 9) 9 3 scenarioPost).2.2 ?_⟩
  decide

/-! Histogram bucket lemmas. -/

theorem RatingDetails.get_set_self (d : RatingDetails) (v : ℤ) (n : ℕ)
    (h1 : 1 ≤ v) (h5 : v ≤ 5) : (d.set v n).get v = n := by
  interval_cases v <;> simp [RatingDetails.get, RatingDetails.set]

theorem RatingDetails.get_set_other (d : RatingDetails) (v w : ℤ) (n : ℕ)
    (hw : w ≠ v) : (d.set v n).get w = d.get w := by
  unfold RatingDetails.set
  split_ifs with hv1 hv2 hv3 hv4 hv5
  · simp [RatingDetails.get, show ¬(w = 1) by omega]
  · simp [RatingDetails.get, show ¬(w = 2) by omega]
  · simp [RatingDetails.get, show ¬(w = 3) by omega]
  · simp [RatingDetails.get, show ¬(w = 4) by omega]
  · simp [RatingDetails.get, show ¬(w = 5) by omega]
  · rfl

/-- C3: a successful addRating with value v in [1,5] increments bucket v by
exactly one and leaves the others unchanged, sets count to the sum of the
histogram and average to the weighted sum over the count rounded to one
decimal; the resulting histogram 5:2 with 3:1 yields count 3 and
average 4.3. -/
theorem C3_addRating_updates_histogram :
    (∀ (now : ℤ) (u : ℕ) (v : ℤ) (p : Post), 1 ≤ v → v ≤ 5 →
      (p.addRating now u v).2 = none ∧
      (p.addRating now u v).1.rating.details.get v = p.rating.details.get v + 1 ∧
      (∀ w : ℤ, w ≠ v →
        (p.addRating now u v).1.rating.details.get w = p.rating.details.get w) ∧
      (p.addRating now u v).1.rating.count =
        (p.addRating now u v).1.rating.details.total ∧
      (p.addRating now u v).1.rating.average =
        ratingAverageSet (((p.addRating now u v).1.rating.details.weighted : ℚ) /
          ((p.addRating now u v).1.rating.details.total : ℚ))) ∧
    ((ratedPost.addRating 0 7 3).1.rating.count = 3 ∧
      (ratedPost.addRating 0 7 3).1.rating.average = 4.3) := by
  constructor
  · intro now u v p h1 h5
    have hv : ¬(v < 1 ∨ v > 5) := by omega
    have hrat : (p.addRating now u v).1.rating =
        { average := ratingAverageSet
            (((p.rating.details.set v (p.rating.details.get v + 1)).weighted : ℚ) /
              ((p.rating.details.set v (p.rating.details.get v + 1)).total : ℚ)),
          count := (p.rating.details.set v (p.rating.details.get v + 1)).total,
          details := p.rating.details.set v (p.rating.details.get v + 1) } := by
      simp only [Post.addRating, if_neg hv]
      exact Post.preSave_rating ..
    refine ⟨by simp only [Post.addRating, if_neg hv], ?_, ?_, ?_, ?_⟩
    · rw [hrat]
      exact RatingDetails.get_set_self _ _ _ h1 h5
    · intro w hw
      rw [hrat]
      exact RatingDetails.get_set_other _ _ _ _ hw
    · rw [hrat]
    · rw [hrat]
  · constructor <;>
      norm_num +decide [Post.addRating, Post.preSave, ratingAverageSet, jsRound,
        RatingDetails.set, RatingDetails.get, RatingDetails.total,
        RatingDetails.weighted, ratedPost, scenarioPost]

/-- Witness for C3: adding a rating of 3 to the histogram 5:2. -/
theorem C3_addRating_updates_histogram_witness :
    (ratedPost.addRating 0 7 3).2 = none ∧
    (ratedPost.addRating 0 7 3).1.rating.details.get 3 =
      ratedPost.rating.details.get 3 + 1 ∧
    (ratedPost.addRating 0 7 3).1.rating.count =
      (ratedPost.addRating 0 7 3).1.rating.details.total ∧
    (ratedPost.addRating 0 7 3).1.rating.average =
      ratingAverageSet (((ratedPost.addRating 0 7 3).1.rating.details.weighted : ℚ) /
        ((ratedPost.addRating 0 7 3).1.rating.details.total : ℚ)) := by
  obtain ⟨h1, h2, h3, h4, h5⟩ :=
    C3_addRating_updates_histogram.1 0 7 3 ratedPost (by decide) (by decide)
  exact ⟨h1, h2, h4, h5⟩

/-- C6: incrementViews always increments the raw counter by exactly one,
and appends a history entry exactly when the given user has no history
entry within the previous 24 hours. -/
theorem C6_incrementViews_counter_and_history :
    ∀ (now : ℤ) (uid : ℕ) (p : Post),
      ((p.incrementViews now (some uid)).views = p.views + 1) ∧
      ((p.incrementViews now none).views = p.views + 1) ∧
      ((∀ v ∈ p.viewHistory, ¬(v.userId = uid ∧ now - v.viewedAt < 24 * 60 * 60 * 1000)) →
        (p.incrementViews now (some uid)).viewHistory =
          p.viewHistory ++ [ViewEntry.mk uid now]) ∧
      ((∃ v ∈ p.viewHistory, v.userId = uid ∧ now - v.viewedAt < 24 * 60 * 60 * 1000) →
        (p.incrementViews now (some uid)).viewHistory = p.viewHistory) := by
  intro now uid p
  have hpred : ∀ v : ViewEntry,
      (v.userId == uid && decide (now - v.viewedAt < 24 * 60 * 60 * 1000)) = true ↔
        (v.userId = uid ∧ now - v.viewedAt < 24 * 60 * 60 * 1000) := by
    intro v
    simp
  refine ⟨?_, ?_, ?_, ?_⟩
  · simp only [Post.incrementViews]
    cases hf : p.viewHistory.find?
        (fun v : ViewEntry =>
          v.userId == uid && decide (now - v.viewedAt < 24 * 60 * 60 * 1000)) with
    | none => simp [Post.preSave_views]
    | some w => simp [Post.preSave_views]
  · simp only [Post.incrementViews]
    simp [Post.preSave_views]
  · intro hnone
    have hf : p.viewHistory.find?
        (fun v : ViewEntry =>
          v.userId == uid && decide (now - v.viewedAt < 24 * 60 * 60 * 1000)) = none := by
      rw [List.find?_eq_none]
      intro v hv
      simp only [hpred v]
      exact hnone v hv
    simp only [Post.incrementViews, hf]
    simp [Post.preSave_viewHistory]
  · intro hex
    obtain ⟨v, hv, hvp⟩ := hex
    have hfs : (p.viewHistory.find?
        (fun v : ViewEntry =>
          v.userId == uid && decide (now - v.viewedAt < 24 * 60 * 60 * 1000))).isSome := by
      rw [List.find?_isSome]
      exact ⟨v, hv, (hpred v).mpr hvp⟩
    cases hf2 : p.viewHistory.find?
        (fun v : ViewEntry =>
          v.userId == uid && decide (now - v.viewedAt < 24 * 60 * 60 * 1000)) with
    | none => rw [hf2] at hfs; simp at hfs
    | some w =>
      simp only [Post.incrementViews, hf2]
      simp [Post.preSave_viewHistory]

/-- A post already viewed by user 7 at time 0. -/
def viewedPost : Post := { scenarioPost with viewHistory := [ViewEntry.mk 7 0] }

/-- Witness for C6: a repeat view by the same user within 24 hours
increments the counter but adds no history entry. -/
theorem C6_incrementViews_counter_and_history_witness :
    (viewedPost.incrementViews 1000 (some 7)).views = viewedPost.views + 1 ∧
    (viewedPost.incrementViews 1000 (some 7)).viewHistory = viewedPost.viewHistory := by
  refine ⟨(C6_incrementViews_counter_and_history 1000 7 viewedPost).1,
    (C6_incrementViews_counter_and_history 1000 7 viewedPost).2.2.2 ?_⟩
  exact ⟨ViewEntry.mk 7 0, by decide, by decide, by decide⟩

/-- C2 counterexample: for the published post with four comments and no
other engagement, the trending pipeline computes trendingScore 0 at age 0,
while the claimed popularityScore/(1+recency) equals 6, because the
aggregation score omits the commentCount*1.5 term. -/
theorem C2_counterexample_score_omits_comments :
    getTrendingScored 0 [commentsOnlyPost] 1 none = [addScores 0 commentsOnlyPost] ∧
    (addScores 0 commentsOnlyPost).trendingScore = 0 ∧
    commentsOnlyPost.popularityScore / (1 + (addScores 0 commentsOnlyPost).recency) = 6 ∧
    (addScores 0 commentsOnlyPost).trendingScore ≠
      commentsOnlyPost.popularityScore / (1 + (addScores 0 commentsOnlyPost).recency) := by
  have h0 : (addScores 0 commentsOnlyPost).trendingScore = 0 := by
    norm_num [addScores, commentsOnlyPost, scenarioPost]
  have h6 : commentsOnlyPost.popularityScore /
      (1 + (addScores 0 commentsOnlyPost).recency) = 6 := by
    norm_num [addScores, Post.popularityScore, Post.likesCount, Post.savesCount,
      commentsOnlyPost, scenarioPost]
  refine ⟨rfl, h0, h6, ?_⟩
  rw [h0, h6]
  norm_num

/-- C2 as amended: every candidate of the trending pipeline carries
trendingScore = (likes*2 + saves*3 + views*0.1 + rating.average*20) /
(1 + (now - publishedAt)/86400000) - the comments term of the popularity
score is not part of the aggregation score - and the pipeline output is
sorted descending by trendingScore. -/
theorem C2_amended_trending_score_and_order :
    ∀ (now : ℤ) (posts : List Post) (limit : ℕ) (subject : Option String),
      List.Forall (fun s : Scored =>
        s.trendingScore =
          ((s.post.likes.length : ℚ) * 2 + (s.post.saves.length : ℚ) * 3 +
            (s.post.views : ℚ) * 0.1 + s.post.rating.average * 20) /
          (1 + ((now - s.post.publishedAt : ℤ) : ℚ) / 86400000))
        (getTrendingScored now posts limit subject) ∧
      (getTrendingScored now posts limit subject).Sorted scoredDesc := by
  intro now posts limit subject
  constructor
  · rw [List.forall_iff_forall_mem]
    intro s hs
    have hs2 : s ∈ List.insertionSort scoredDesc
        ((posts.filter (trendingMatch subject)).map (addScores now)) :=
      List.mem_of_mem_take hs
    have hs3 : s ∈ (posts.filter (trendingMatch subject)).map (addScores now) :=
      (List.perm_insertionSort scoredDesc _).mem_iff.mp hs2
    obtain ⟨p, hp, rfl⟩ := List.mem_map.mp hs3
    show (addScores now p).trendingScore = _
    simp only [addScores]
    norm_num
  · exact List.Pairwise.sublist (List.take_sublist _ _)
      (List.sorted_insertionSort scoredDesc _)

/-- C8, evaluated at the failing input: getTrending with limit 0 does not
return an empty sequence - the $limit stage rejects a nonpositive limit, so
the call errors for every collection - while a subject filter matching no
published post does produce an empty result, shown at a concrete math-only
collection filtered by physics. -/
theorem C8_limit_zero_errors :
    (∀ (now : ℤ) (posts : List Post) (users : List User) (subject : Option String),
      getTrending now posts users 0 subject = Except.error "the limit must be positive") ∧
    getTrending 0 [scenarioPost] [] 5 (some "physics") = Except.ok [] := by
  constructor
  · intro now posts users subject
    simp [getTrending]
  · rfl

/-- C5: a comment created with a parent gets depth min(parent.depth + 1, 5),
a comment created without a parent gets depth 0, and a reply to a depth-5
parent gets depth 5. -/
theorem C5_comment_depth_clamped :
    (∀ (now : ℤ) (cid postId authorId : ℕ) (content : String) (pc c : Comment),
        createComment now cid postId authorId content (some pc) = Except.ok c →
        c.depth = min (pc.depth + 1) 5) ∧
    (∀ (now : ℤ) (cid postId authorId : ℕ) (content : String) (c : Comment),
        createComment now cid postId authorId content none = Except.ok c →
        c.depth = 0) ∧
    (∀ (now : ℤ) (cid postId authorId : ℕ) (content : String) (pc c : Comment),
        pc.depth = 5 →
        createComment now cid postId authorId content (some pc) = Except.ok c →
        c.depth = 5) := by
  refine ⟨?_, ?_, ?_⟩
  · intro now cid postId authorId content pc c h
    unfold createComment at h
    by_cases hc : content.length < 1 ∨ content.length > 2000
    · rw [if_pos hc] at h
      exact absurd h (by simp)
    · rw [if_neg hc] at h
      have hx := Except.ok.inj h
      subst hx
      rfl
  · intro now cid postId authorId content c h
    unfold createComment at h
    by_cases hc : content.length < 1 ∨ content.length > 2000
    · rw [if_pos hc] at h
      exact absurd h (by simp)
    · rw [if_neg hc] at h
      have hx := Except.ok.inj h
      subst hx
      rfl
  · intro now cid postId authorId content pc c hd5 h
    unfold createComment at h
    by_cases hc : content.length < 1 ∨ content.length > 2000
    · rw [if_pos hc] at h
      exact absurd h (by simp)
    · rw [if_neg hc] at h
      have hx := Except.ok.inj h
      subst hx
      simp [Comment.fixDepth, hd5]

/-- A parent comment already at the maximum depth 5. -/
def parentAtMaxDepth : Comment :=
  ⟨99, "parent", 3, 20, none, 5, CommentStatus.active, false, false, []⟩

/-- The comment produced by replying to parentAtMaxDepth: depth clamps
at 5. -/
def clampedReply : Comment :=
  ⟨10, "hello", 30, 20, some 99, 5, CommentStatus.active, false, false, []⟩

/-- Witness for C5: the reply to a depth-5 comment has depth 5, not 6. -/
theorem C5_comment_depth_clamped_witness :
    createComment 0 10 20 30 "hello" (some parentAtMaxDepth) = Except.ok clampedReply ∧
    clampedReply.depth = 5 :=
  ⟨rfl, C5_comment_depth_clamped.2.2 0 10 20 30 "hello" parentAtMaxDepth
    clampedReply (by decide) rfl⟩

/-- C7: editing the content of an active comment appends the prior content
with the edit timestamp to editHistory and sets edited. -/
theorem C7_editComment_appends_history :
    ∀ (now : ℤ) (c : Comment) (newContent : String) (c2 : Comment),
      c.status = CommentStatus.active →
      newContent ≠ c.content →
      editComment now newContent c = Except.ok c2 →
      c2.edited = true ∧
      c2.editHistory = c.editHistory ++ [EditEntry.mk c.content now "User edit"] := by
  intro now c newContent c2 hst hne h
  unfold editComment at h
  rw [if_neg (by simp [hst])] at h
  by_cases hlen : newContent.length < 1 ∨ newContent.length > 2000
  · rw [if_pos hlen] at h
    exact absurd h (by simp)
  · rw [if_neg hlen] at h
    have hx := Except.ok.inj h
    subst hx
    have hmod : (!(newContent == c.content)) = true := by
      simp [hne]
    by_cases hpc : c.parentComment.isSome <;>
      simp [Comment.preSave, hmod, hpc]

/-- An active comment before an edit. -/
def activeComment : Comment :=
  ⟨5, "old text", 1, 2, none, 0, CommentStatus.active, false, false, []⟩

/-- The state of activeComment after editing its content at time 77. -/
def editedComment : Comment :=
  ⟨5, "new text", 1, 2, none, 0, CommentStatus.active, false, true,
    [EditEntry.mk "old text" 77 "User edit"]⟩

/-- Witness for C7 at a concrete edit. -/
theorem C7_editComment_appends_history_witness :
    editedComment.edited = true ∧
    editedComment.editHistory =
      activeComment.editHistory ++ [EditEntry.mk activeComment.content 77 "User edit"] :=
  C7_editComment_appends_history 77 activeComment "new text" editedComment
    (by decide) (by decide) rfl

/-! Invariant machinery for accepted answers. -/

theorem oid_setAccepted (cid : ℕ) (d : Comment) : (setAccepted cid d).oid = d.oid := by
  unfold setAccepted
  split <;> rfl

theorem oid_unsetAccepted (pid : ℕ) (d : Comment) : (unsetAccepted pid d).oid = d.oid := by
  unfold unsetAccepted
  split <;> rfl

theorem post_unsetAccepted (pid : ℕ) (d : Comment) :
    (unsetAccepted pid d).post = d.post := by
  unfold unsetAccepted
  split <;> rfl

theorem post_setAccepted (cid : ℕ) (d : Comment) :
    (setAccepted cid d).post = d.post := by
  unfold setAccepted
  split <;> rfl

/-- After the unset-then-set pass of acceptAnswer, a comment counts as an
accepted comment of the post exactly when it is the chosen comment. -/
theorem acceptedChar (pid cid : ℕ) (d : Comment) :
    ((setAccepted cid (unsetAccepted pid d)).post == pid &&
      (setAccepted cid (unsetAccepted pid d)).isAcceptedAnswer) =
    (d.post == pid && d.oid == cid) := by
  rw [post_setAccepted, post_unsetAccepted]
  by_cases hoc : d.oid = cid
  · have hacc : (setAccepted cid (unsetAccepted pid d)).isAcceptedAnswer = true := by
      unfold setAccepted
      rw [if_pos (by rw [oid_unsetAccepted]; exact beq_iff_eq.mpr hoc)]
    rw [hacc, hoc]
    simp
  · have hne : ((unsetAccepted pid d).oid == cid) = false := by
      rw [oid_unsetAccepted]
      exact beq_eq_false_iff_ne.mpr hoc
    have hacc : (setAccepted cid (unsetAccepted pid d)).isAcceptedAnswer =
        (unsetAccepted pid d).isAcceptedAnswer := by
      unfold setAccepted
      rw [if_neg (by simp [hne])]
    rw [hacc]
    have hocf : (d.oid == cid) = false := beq_eq_false_iff_ne.mpr hoc
    rw [hocf, Bool.and_false]
    unfold unsetAccepted
    by_cases hua : (d.post == pid && d.isAcceptedAnswer) = true
    · rw [if_pos hua]
      simp
    · rw [if_neg hua]
      simpa using hua

/-- In a list of comments with pairwise distinct ids, at most one comment
can satisfy a predicate that pins the id. -/
theorem filter_oid_length_le_one (l : List Comment) (x : ℕ) (q : Comment → Bool)
    (h : (l.map Comment.oid).Nodup) :
    (l.filter (fun d : Comment => q d && d.oid == x)).length ≤ 1 := by
  induction l with
  | nil => simp
  | cons a l ih =>
    rw [List.map_cons, List.nodup_cons] at h
    obtain ⟨ha, hl⟩ := h
    cases hqa : (q a && a.oid == x) with
    | true =>
      rw [List.filter_cons, hqa, if_pos rfl]
      have hax : a.oid = x := by
        simp only [Bool.and_eq_true, beq_iff_eq] at hqa
        exact hqa.2
      have hnil : l.filter (fun d : Comment => q d && d.oid == x) = [] := by
        rw [List.filter_eq_nil_iff]
        intro b hb hqb
        simp only [Bool.and_eq_true, beq_iff_eq] at hqb
        exact ha (hax ▸ hqb.2 ▸ List.mem_map_of_mem Comment.oid hb)
      simp [hnil]
    | false =>
      rw [List.filter_cons, hqa]
      simpa using ih hl

/-- What a successful acceptAnswer produces: the post keeps its id and is
marked solved, comment ids are preserved, and under distinct ids at most
one comment of the post remains accepted. -/
theorem acceptAnswer_ok (comments : List Comment) (c : Comment) (p : Post)
    (out : Post × List Comment) (h : acceptAnswer comments c p = Except.ok out) :
    out.1.oid = p.oid ∧ out.1.isSolved = true ∧
    out.2.map Comment.oid = comments.map Comment.oid ∧
    ((comments.map Comment.oid).Nodup →
      (acceptedFor out.1.oid out.2).length ≤ 1) := by
  unfold acceptAnswer at h
  by_cases h1 : p.postType ≠ "question"
  · rw [if_pos h1] at h
    exact absurd h (by simp)
  · rw [if_neg h1] at h
    by_cases h2 : ¬(c.post = p.oid ∧ c ∈ comments)
    · rw [if_pos h2] at h
      exact absurd h (by simp)
    · rw [if_neg h2] at h
      have hx := Except.ok.inj h
      subst hx
      refine ⟨rfl, rfl, ?_, ?_⟩
      · rw [List.map_map]
        apply List.map_congr_left
        intro d _
        show (setAccepted c.oid (unsetAccepted p.oid d)).oid = d.oid
        rw [oid_setAccepted, oid_unsetAccepted]
      · intro hnodup
        show (acceptedFor p.oid
          (comments.map (fun d : Comment =>
            setAccepted c.oid (unsetAccepted p.oid d)))).length ≤ 1
        unfold acceptedFor
        rw [List.filter_map, List.length_map]
        have hcong : (comments.filter
            ((fun d : Comment => d.post == p.oid && d.isAcceptedAnswer) ∘
              (fun d : Comment => setAccepted c.oid (unsetAccepted p.oid d)))) =
            comments.filter (fun d : Comment => (d.post == p.oid) && (d.oid == c.oid)) := by
          apply List.filter_congr
          intro d _
          show ((setAccepted c.oid (unsetAccepted p.oid d)).post == p.oid &&
            (setAccepted c.oid (unsetAccepted p.oid d)).isAcceptedAnswer) = _
          exact acceptedChar p.oid c.oid d
        rw [hcong]
        exact filter_oid_length_le_one comments c.oid
          (fun d : Comment => d.post == p.oid) hnodup

/-- One acceptAnswer step preserves distinct comment ids, the post id, and
the at-most-one-accepted bound. -/
theorem acceptStep_inv (s : Post × List Comment) (cid : ℕ)
    (hn : (s.2.map Comment.oid).Nodup)
    (hlen : (acceptedFor s.1.oid s.2).length ≤ 1) :
    ((acceptStep s cid).2.map Comment.oid).Nodup ∧
    (acceptStep s cid).1.oid = s.1.oid ∧
    (acceptedFor (acceptStep s cid).1.oid (acceptStep s cid).2).length ≤ 1 := by
  cases hf : s.2.find? (fun d : Comment => d.oid == cid) with
  | none =>
    simp only [acceptStep, hf]
    exact ⟨hn, trivial, hlen⟩
  | some c =>
    cases ha : acceptAnswer s.2 c s.1 with
    | error e =>
      simp only [acceptStep, hf, ha]
      exact ⟨hn, trivial, hlen⟩
    | ok out =>
      simp only [acceptStep, hf, ha]
      obtain ⟨hoid, _, hmap, hacc⟩ := acceptAnswer_ok s.2 c s.1 out ha
      refine ⟨by rw [hmap]; exact hn, hoid, hacc hn⟩

/-- The at-most-one-accepted bound survives any sequence of acceptAnswer
calls. -/
theorem acceptSeq_inv (cids : List ℕ) :
    ∀ s : Post × List Comment,
      (s.2.map Comment.oid).Nodup →
      (acceptedFor s.1.oid s.2).length ≤ 1 →
      (acceptedFor (acceptSeq s cids).1.oid (acceptSeq s cids).2).length ≤ 1 := by
  induction cids with
  | nil => intro s _ hlen; exact hlen
  | cons cid rest ih =>
    intro s hn hlen
    obtain ⟨hn2, _, hlen2⟩ := acceptStep_inv s cid hn hlen
    exact ih (acceptStep s cid) hn2 hlen2

/-- C9: starting from a state with at most one accepted comment and
pairwise distinct comment ids, any sequence of acceptAnswer calls leaves at
most one comment of the post accepted, and every single successful
acceptAnswer marks the post solved and leaves at most one accepted. -/
theorem C9_accepted_answer_unique :
    ∀ (p : Post) (comments : List Comment),
      (comments.map Comment.oid).Nodup →
      (acceptedFor p.oid comments).length ≤ 1 →
      (∀ cids : List ℕ,
        (acceptedFor (acceptSeq (p, comments) cids).1.oid
          (acceptSeq (p, comments) cids).2).length ≤ 1) ∧
      (∀ (c : Comment) (out : Post × List Comment),
        acceptAnswer comments c p = Except.ok out →
        out.1.isSolved = true ∧ (acceptedFor out.1.oid out.2).length ≤ 1) := by
  intro p comments hn hlen
  constructor
  · intro cids
    exact acceptSeq_inv cids (p, comments) hn hlen
  · intro c out h
    obtain ⟨_, hsolved, _, hacc⟩ := acceptAnswer_ok comments c p out h
    exact ⟨hsolved, hacc hn⟩

/-- A question post with id 2. -/
def questionPost : Post := { scenarioPost with postType := "question", oid := 2 }

/-- Two candidate answers on questionPost. -/
def answerA : Comment :=
  ⟨5, "answer a", 1, 2, none, 0, CommentStatus.active, false, false, []⟩

def answerB : Comment :=
  ⟨6, "answer b", 3, 2, none, 0, CommentStatus.active, false, false, []⟩

/-- Witness for C9: accepting answer 5 and then answer 6 leaves at most one
accepted comment. -/
theorem C9_accepted_answer_unique_witness :
    (acceptedFor (acceptSeq (questionPost, [answerA, answerB]) [5, 6]).1.oid
      (acceptSeq (questionPost, [answerA, answerB]) [5, 6]).2).length ≤ 1 :=
  (C9_accepted_answer_unique questionPost [answerA, answerB]
    (by decide) (by decide)).1 [5, 6]

end StudyShare
